import Mathlib

/-
Verification development for the geyser gRPC filter engine
(yellowstone-grpc-proto/src/plugin/filter/filter.rs and
yellowstone-grpc-proto/src/plugin/message.rs).

Shallow embedding conventions:
 - `Pubkey`, `Signature`, `Hash` values are modelled as `Nat` (they are opaque
   byte identities in the source; only equality is ever used).
 - `HashSet`/`HashMap` become lists (of elements / of key-value pairs); the
   source only uses membership, lookup, intersection and subset tests.
 - `u64`/`usize` become `Nat`; the single place where u64 addition can wrap
   (`offset + length` when building data slices) takes an explicit `% 2^64`.
 - Wall-clock timestamp fields (`created_at`, of the external prost
   `Timestamp` type) are elided: no filter logic reads them.
 - Fallible constructors return `Except FilterError`.
-/

namespace Geyser

abbrev Pubkey := Nat

abbrev Signature := Nat

/-- Commitment level of a slot, from plugin/message.rs `CommitmentLevel`. -/
inductive CommitmentLevel where
  | processed
  | confirmed
  | finalized
  | firstShredReceived
  | completed
  | createdBank
  | dead
deriving DecidableEq, Repr

/-- Numeric value of the commitment level (the `as i32` cast on the Rust enum). -/
def CommitmentLevel.toNat : CommitmentLevel → Nat
  | .processed => 0
  | .confirmed => 1
  | .finalized => 2
  | .firstShredReceived => 3
  | .completed => 4
  | .createdBank => 5
  | .dead => 6

/-- Slot status message, from plugin/message.rs `MessageSlot`. -/
structure MessageSlot where
  slot : Nat
  parent : Option Nat
  status : CommitmentLevel
  dead_error : Option String
deriving DecidableEq, Repr

/-- Account record, from plugin/message.rs `MessageAccountInfo`;
`data` is the opaque byte payload (each entry a byte value). -/
structure MessageAccountInfo where
  pubkey : Pubkey
  lamports : Nat
  owner : Pubkey
  executable : Bool
  rent_epoch : Nat
  data : List Nat
  write_version : Nat
  txn_signature : Option Signature
deriving DecidableEq, Repr

/-- Account write message, from plugin/message.rs `MessageAccount`. -/
structure MessageAccount where
  account : MessageAccountInfo
  slot : Nat
  is_startup : Bool
deriving DecidableEq, Repr

/-- Decoded transaction, from the proto `confirmed_block::Transaction`;
only the signature list is read by the filter engine, the message body
is elided. -/
structure TxTransaction where
  signatures : List Signature
deriving DecidableEq, Repr

/-- Transaction status meta, from the proto
`confirmed_block::TransactionStatusMeta`; only the error field is read by the
filter engine, the remaining fields are elided. -/
structure TransactionStatusMeta where
  err : Option Nat
deriving DecidableEq, Repr

/-- Transaction record, from plugin/message.rs `MessageTransactionInfo`. -/
structure MessageTransactionInfo where
  signature : Signature
  is_vote : Bool
  transaction : TxTransaction
  meta : TransactionStatusMeta
  index : Nat
  account_keys : List Pubkey
deriving DecidableEq, Repr

/-- Transaction message, from plugin/message.rs `MessageTransaction`. -/
structure MessageTransaction where
  transaction : MessageTransactionInfo
  slot : Nat
deriving DecidableEq, Repr

/-- Entry message, from plugin/message.rs `MessageEntry`; the 32-byte poh hash
is modelled as its byte list. -/
structure MessageEntry where
  slot : Nat
  index : Nat
  num_hashes : Nat
  hash : List Nat
  executed_transaction_count : Nat
  starting_transaction_index : Nat
deriving DecidableEq, Repr

/-- Block meta payload, from the proto `SubscribeUpdateBlockMeta`;
`rewards` is an opaque rewards object modelled by an identity. -/
structure SubscribeUpdateBlockMeta where
  parent_slot : Nat
  slot : Nat
  parent_blockhash : String
  blockhash : String
  rewards : Option Nat
  block_time : Option Nat
  block_height : Option Nat
  executed_transaction_count : Nat
  entries_count : Nat
deriving DecidableEq, Repr

/-- Block meta message, from plugin/message.rs `MessageBlockMeta`. -/
structure MessageBlockMeta where
  block_meta : SubscribeUpdateBlockMeta
deriving DecidableEq, Repr

/-- Block message, from plugin/message.rs `MessageBlock`; the `Arc` sharing is
modelled by plain values (all records are immutable). -/
structure MessageBlock where
  meta : MessageBlockMeta
  transactions : List MessageTransactionInfo
  updated_account_count : Nat
  accounts : List MessageAccountInfo
  entries : List MessageEntry
deriving DecidableEq, Repr

/-- Canonical message, from plugin/message.rs `Message`. -/
inductive Message where
  | slot (msg : MessageSlot)
  | account (msg : MessageAccount)
  | transaction (msg : MessageTransaction)
  | entry (msg : MessageEntry)
  | blockMeta (msg : MessageBlockMeta)
  | block (msg : MessageBlock)
deriving DecidableEq, Repr

/-- Outbound account payload, from the proto `SubscribeUpdateAccountInfo`. -/
structure SubscribeUpdateAccountInfo where
  pubkey : Pubkey
  lamports : Nat
  owner : Pubkey
  executable : Bool
  rent_epoch : Nat
  data : List Nat
  write_version : Nat
  txn_signature : Option Signature
deriving DecidableEq, Repr

/-- Outbound account update, from the proto `SubscribeUpdateAccount`. -/
structure SubscribeUpdateAccount where
  account : Option SubscribeUpdateAccountInfo
  slot : Nat
  is_startup : Bool
deriving DecidableEq, Repr

/-- Outbound slot update, from the proto `SubscribeUpdateSlot`; `status` holds
the numeric commitment level. -/
structure SubscribeUpdateSlot where
  slot : Nat
  parent : Option Nat
  status : Nat
deriving DecidableEq, Repr

/-- Outbound transaction payload, from the proto
`SubscribeUpdateTransactionInfo`. -/
structure SubscribeUpdateTransactionInfo where
  signature : Signature
  is_vote : Bool
  transaction : Option TxTransaction
  meta : Option TransactionStatusMeta
  index : Nat
deriving DecidableEq, Repr

/-- Outbound transaction update, from the proto `SubscribeUpdateTransaction`. -/
structure SubscribeUpdateTransaction where
  transaction : Option SubscribeUpdateTransactionInfo
  slot : Nat
deriving DecidableEq, Repr

/-- Outbound transaction status update, from the proto
`SubscribeUpdateTransactionStatus`. -/
structure SubscribeUpdateTransactionStatus where
  slot : Nat
  signature : Signature
  is_vote : Bool
  index : Nat
  err : Option Nat
deriving DecidableEq, Repr

/-- Outbound entry update, from the proto `SubscribeUpdateEntry`. -/
structure SubscribeUpdateEntry where
  slot : Nat
  index : Nat
  num_hashes : Nat
  hash : List Nat
  executed_transaction_count : Nat
  starting_transaction_index : Nat
deriving DecidableEq, Repr

/-- Outbound block update, from the proto `SubscribeUpdateBlock`. -/
structure SubscribeUpdateBlock where
  slot : Nat
  blockhash : String
  rewards : Option Nat
  block_time : Option Nat
  block_height : Option Nat
  parent_slot : Nat
  parent_blockhash : String
  executed_transaction_count : Nat
  transactions : List SubscribeUpdateTransactionInfo
  updated_account_count : Nat
  accounts : List SubscribeUpdateAccountInfo
  entries_count : Nat
  entries : List SubscribeUpdateEntry
deriving DecidableEq, Repr

/-- Outbound pong, from the proto `SubscribeUpdatePong`. -/
structure SubscribeUpdatePong where
  id : Int
deriving DecidableEq, Repr

/-- The `update_oneof` payload of an outbound update, from the proto
`subscribe_update::UpdateOneof` (the inbound `Ping` variant is never produced
by the filter engine and is elided). -/
inductive UpdateOneof where
  | slot (msg : SubscribeUpdateSlot)
  | account (msg : SubscribeUpdateAccount)
  | transaction (msg : SubscribeUpdateTransaction)
  | transactionStatus (msg : SubscribeUpdateTransactionStatus)
  | entry (msg : SubscribeUpdateEntry)
  | block (msg : SubscribeUpdateBlock)
  | blockMeta (msg : SubscribeUpdateBlockMeta)
  | pong (msg : SubscribeUpdatePong)
deriving DecidableEq, Repr

/-- Outbound wire message, from the proto `SubscribeUpdate`. -/
structure SubscribeUpdate where
  filters : List String
  update_oneof : Option UpdateOneof
deriving DecidableEq, Repr

/-- Base58 alphabet (Bitcoin alphabet), as used by the external `bs58` crate. -/
def base58Alphabet : List Char :=
  "123456789ABCDEFGHJKLMNPQRSTUVWXYZabcdefghijkmnopqrstuvwxyz".toList

/-- Value of one base58 character, `none` for a character outside the
alphabet. -/
def base58Digit (c : Char) : Option Nat :=
  let i := base58Alphabet.indexOf c
  if i < 58 then some i else none

/-- Minimal big-endian byte representation of a natural number (empty for 0),
with a structural fuel bound on the number of produced bytes: any fuel at
least the byte-length of `n` yields the full representation. -/
def natToBytesBE (fuel : Nat) (n : Nat) : List Nat :=
  match fuel with
  | 0 => []
  | fuel + 1 => if n = 0 then [] else natToBytesBE fuel (n / 256) ++ [n % 256]

/-- Base58 decoding with the Bitcoin alphabet: the decoded bytes are one zero
byte per leading one-character followed by the big-endian bytes of the value of
the string read as a base-58 numeral; `none` on a character outside the
alphabet.  Modelled from the external `bs58` crate used by the source (whose
output buffer grows by at most one byte per input character, so the character
count bounds the byte count). -/
def bs58Decode (s : String) : Option (List Nat) :=
  let cs := s.toList
  if cs.all fun c => (base58Digit c).isSome then
    let val := cs.foldl (fun acc c => acc * 58 + (base58Digit c).getD 0) 0
    let zeros := (cs.takeWhile fun c => c = '1').length
    some (List.replicate zeros 0 ++ natToBytesBE cs.length val)
  else none

/-- Value of one standard-alphabet base64 character, `none` for padding or a
character outside the alphabet. -/
def base64Digit (c : Char) : Option Nat :=
  if 'A' ≤ c ∧ c ≤ 'Z' then some (c.toNat - 65)
  else if 'a' ≤ c ∧ c ≤ 'z' then some (c.toNat - 71)
  else if '0' ≤ c ∧ c ≤ '9' then some (c.toNat + 4)
  else if c = '+' then some 62
  else if c = '/' then some 63
  else none

/-- Decode base64 characters four at a time; padding (`=`) is accepted only at
the very end and non-canonical trailing bits are rejected.  Modelled from the
external `base64` crate's `STANDARD` engine used by the source. -/
def base64DecodeGroups : List Char → Option (List Nat)
  | [] => some []
  | a :: b :: c :: d :: rest =>
    match base64Digit a, base64Digit b with
    | some da, some db =>
      if d = '=' then
        if rest ≠ [] then none
        else if c = '=' then
          if db % 16 = 0 then some [da * 4 + db / 16] else none
        else
          match base64Digit c with
          | some dc =>
            if dc % 4 = 0 then some [da * 4 + db / 16, db % 16 * 16 + dc / 4]
            else none
          | none => none
      else
        match base64Digit c, base64Digit d with
        | some dc, some dd =>
          (base64DecodeGroups rest).map fun tail =>
            (da * 4 + db / 16) :: (db % 16 * 16 + dc / 4) :: (dc % 4 * 64 + dd) :: tail
        | _, _ => none
    | _, _ => none
  | _ => none

/-- Standard base64 decoding with mandatory canonical padding. -/
def base64Decode (s : String) : Option (List Nat) :=
  base64DecodeGroups s.toList

/-- Error kinds of the filter-limit checks.  Modelled from the spec: the
limits module (plugin/filter/limits.rs) is not under src/; the spec lists the
kinds `MaxExceeded`, `AnyNotAllowed`, `PubkeyRejected`. -/
inductive FilterLimitsCheckError where
  | maxExceeded
  | anyNotAllowed
  | pubkeyRejected
deriving DecidableEq, Repr

/-- Filter build errors, from filter.rs `FilterError` (the name-registry error
is elided together with the registry, see `FilterName`). -/
inductive FilterError where
  | limitsCheck (e : FilterLimitsCheckError)
  | invalidCommitment (commitment : Int)
  | invalidPubkey
  | invalidSignature
  | createAccountStateMaxFilters (max : Nat)
  | createAccountState (msg : String)
  | createBlocksNotAllowed (field : String)
  | createDataSliceOutOfOrder
  | createDataSliceOverlap
deriving DecidableEq, Repr

/-- Interned subscription label.  Modelled from the spec: the per-connection
filter-name registry (plugin/filter/name.rs) is not under src/; it interns
label strings and hands back identity handles compared as strings, so a name
handle is modelled by the string itself (its length/count limits are outside
the claims). -/
abbrev FilterName := String

/-- Check a count against a per-kind cap.  Modelled from the spec: limits.rs
is not under src/; exceeding a `max` cap fails with `MaxExceeded`. -/
def FilterLimits.check_max (len max : Nat) : Except FilterError Unit :=
  if len > max then .error (.limitsCheck .maxExceeded) else .ok ()

/-- Check whether an empty-criterion filter is permitted.  Modelled from the
spec: limits.rs is not under src/; an empty criterion with `any = false` fails
with `AnyNotAllowed`. -/
def FilterLimits.check_any (is_empty any : Bool) : Except FilterError Unit :=
  if is_empty ∧ ¬any then .error (.limitsCheck .anyNotAllowed) else .ok ()

/-- Check a pubkey-list cardinality cap.  Modelled from the spec: limits.rs is
not under src/. -/
def FilterLimits.check_pubkey_max (len max : Nat) : Except FilterError Unit :=
  if len > max then .error (.limitsCheck .maxExceeded) else .ok ()

/-- Check a pubkey against a reject set.  Modelled from the spec: limits.rs is
not under src/; a referenced rejected pubkey fails with `PubkeyRejected`. -/
def FilterLimits.check_pubkey_reject (pubkey : Pubkey) (limit : List Pubkey) :
    Except FilterError Unit :=
  if pubkey ∈ limit then .error (.limitsCheck .pubkeyRejected) else .ok ()

/-- Parse a base58 pubkey string.  Modelled from the spec: `Pubkey::from_str`
lives in the external solana-sdk; it base58-decodes the string and requires
exactly 32 bytes, the pubkey identity being the byte content. -/
def pubkeyFromStr (s : String) : Except FilterError Pubkey :=
  match bs58Decode s with
  | some bytes =>
    if bytes.length = 32 then .ok (bytes.foldl (fun a b => a * 256 + b) 0)
    else .error .invalidPubkey
  | none => .error .invalidPubkey

/-- Decode a pubkey list, checking each against the reject set; from filter.rs
`Filter::decode_pubkeys` / `decode_pubkeys_into_set` (the `HashSet` is
modelled as the list of decoded keys). -/
def decodePubkeysIntoSet (pubkeys : List String) (limit : List Pubkey) :
    Except FilterError (List Pubkey) :=
  pubkeys.mapM fun value => do
    let pubkey ← pubkeyFromStr value
    FilterLimits.check_pubkey_reject pubkey limit
    pure pubkey

/-- Lamports comparison predicate, from filter.rs `FilterAccountsLamports`
(also standing for the proto oneof `Cmp`, whose `From` conversion is
variant-by-variant identity). -/
inductive FilterAccountsLamports where
  | eq (value : Nat)
  | ne (value : Nat)
  | lt (value : Nat)
  | gt (value : Nat)
deriving DecidableEq, Repr

/-- Lamports predicate evaluation, from filter.rs
`FilterAccountsLamports::is_match` (note the source compares
`value < lamports` for `Lt` and `value > lamports` for `Gt`). -/
def FilterAccountsLamports.is_match : FilterAccountsLamports → Nat → Bool
  | .eq value, lamports => value = lamports
  | .ne value, lamports => value ≠ lamports
  | .lt value, lamports => value < lamports
  | .gt value, lamports => value > lamports

/-- Memcmp byte literal of the request, from the proto oneof
`subscribe_request_filter_accounts_filter_memcmp::Data`. -/
inductive AccountsFilterMemcmpOneof where
  | bytes (data : List Nat)
  | base58 (data : String)
  | base64 (data : String)
deriving DecidableEq, Repr

/-- Memcmp request entry, from the proto
`SubscribeRequestFilterAccountsFilterMemcmp`. -/
structure SubscribeRequestFilterAccountsFilterMemcmp where
  offset : Nat
  data : Option AccountsFilterMemcmpOneof
deriving DecidableEq, Repr

/-- Lamports request entry, from the proto
`SubscribeRequestFilterAccountsFilterLamports`. -/
structure SubscribeRequestFilterAccountsFilterLamports where
  cmp : Option FilterAccountsLamports
deriving DecidableEq, Repr

/-- One account data-predicate request entry, from the proto oneof
`subscribe_request_filter_accounts_filter::Filter`. -/
inductive AccountsFilterDataOneof where
  | memcmp (m : SubscribeRequestFilterAccountsFilterMemcmp)
  | datasize (n : Nat)
  | tokenAccountState (b : Bool)
  | lamports (l : SubscribeRequestFilterAccountsFilterLamports)
deriving DecidableEq, Repr

/-- Account data-predicate request wrapper, from the proto
`SubscribeRequestFilterAccountsFilter`. -/
structure SubscribeRequestFilterAccountsFilter where
  filter : Option AccountsFilterDataOneof
deriving DecidableEq, Repr

/-- Compiled per-filter-name account data predicate, from filter.rs
`FilterAccountsState`. -/
structure FilterAccountsState where
  memcmp : List (Nat × List Nat)
  datasize : Option Nat
  token_account_state : Bool
  lamports : List FilterAccountsLamports
deriving DecidableEq, Repr, Inhabited

/-- SPL token account shape check.  Modelled from the spec: the check calls
`TokenAccount::valid_account_data` of the external spl-token-2022 crate; the
spec describes it as "length 165 with the standard account-state byte" (the
account-state byte sits at offset 108 and must be initialized or frozen). -/
def validTokenAccountData (data : List Nat) : Bool :=
  data.length = 165 ∧ (data.getD 108 0 = 1 ∨ data.getD 108 0 = 2)

/-- One iteration of the build loop of filter.rs `FilterAccountsState::new`:
the effect of a single request entry on the partially built state (the
source's early returns become errors, the `this` mutations become the
returned updated state). -/
def FilterAccountsState.step (filter : SubscribeRequestFilterAccountsFilter)
    (this : FilterAccountsState) : Except FilterError FilterAccountsState :=
  match filter.filter with
  | some (.memcmp memcmp) =>
    match memcmp.data with
    | some (.bytes data) =>
      if data.length > 128 then .error (.createAccountState "data too large")
      else .ok { this with memcmp := this.memcmp ++ [(memcmp.offset, data)] }
    | some (.base58 data) =>
      if data.length > 175 then .error (.createAccountState "data too large")
      else
        match bs58Decode data with
        | some decoded =>
          if decoded.length > 128 then .error (.createAccountState "data too large")
          else .ok { this with memcmp := this.memcmp ++ [(memcmp.offset, decoded)] }
        | none => .error (.createAccountState "invalid base58")
    | some (.base64 data) =>
      if data.length > 172 then .error (.createAccountState "data too large")
      else
        match base64Decode data with
        | some decoded =>
          if decoded.length > 128 then .error (.createAccountState "data too large")
          else .ok { this with memcmp := this.memcmp ++ [(memcmp.offset, decoded)] }
        | none => .error (.createAccountState "invalid base64")
    | none => .error (.createAccountState "data for memcmp should be defined")
  | some (.datasize datasize) =>
    if this.datasize.isSome then
      .error (.createAccountState "datasize used more than once")
    else .ok { this with datasize := some datasize }
  | some (.tokenAccountState value) =>
    if ¬value then
      .error (.createAccountState "token_account_state only allowed to be true")
    else .ok { this with token_account_state := true }
  | some (.lamports l) =>
    match l.cmp with
    | some cmp => .ok { this with lamports := this.lamports ++ [cmp] }
    | none => .error (.createAccountState "cmp for lamports should be defined")
  | none => .error (.createAccountState "filter should be defined")

/-- Build loop of filter.rs `FilterAccountsState::new`: fold the entries
through `step`, stopping at the first error. -/
def FilterAccountsState.build (filters : List SubscribeRequestFilterAccountsFilter)
    (this : FilterAccountsState) : Except FilterError FilterAccountsState :=
  match filters with
  | [] => .ok this
  | filter :: rest => do
    FilterAccountsState.build rest (← FilterAccountsState.step filter this)

/-- Compiled data predicate constructor, from filter.rs
`FilterAccountsState::new` (MAX_FILTERS = 4, MAX_DATA_SIZE = 128,
MAX_DATA_BASE58_SIZE = 175, MAX_DATA_BASE64_SIZE = 172). -/
def FilterAccountsState.new (filters : List SubscribeRequestFilterAccountsFilter) :
    Except FilterError FilterAccountsState :=
  if filters.length > 4 then .error (.createAccountStateMaxFilters 4)
  else FilterAccountsState.build filters ⟨[], none, false, []⟩

/-- Emptiness of the compiled data predicate, from filter.rs
`FilterAccountsState::is_empty`. -/
def FilterAccountsState.is_empty (s : FilterAccountsState) : Bool :=
  s.memcmp.isEmpty ∧ s.datasize.isNone ∧ ¬s.token_account_state ∧ s.lamports.isEmpty

/-- Byte range `data[start..end]` of an account payload (the Rust slice
expression). -/
def sliceBytes (data : List Nat) (start stop : Nat) : List Nat :=
  (data.drop start).take (stop - start)

/-- Data-predicate evaluation, from filter.rs `FilterAccountsState::is_match`:
datasize equality, token-account shape, every lamports comparison, and every
memcmp byte comparison at its offset (out-of-bounds memcmp fails). -/
def FilterAccountsState.is_match (s : FilterAccountsState) (data : List Nat)
    (lamports : Nat) : Bool :=
  (match s.datasize with
   | some datasize => data.length == datasize
   | none => true) &&
  (!s.token_account_state || validTokenAccountData data) &&
  s.lamports.all (fun f => f.is_match lamports) &&
  s.memcmp.all fun p =>
    decide (p.1 + p.2.length ≤ data.length) &&
      (sliceBytes data p.1 (p.1 + p.2.length) == p.2)

/-- Compiled accounts sub-filter, from filter.rs `FilterAccounts`: inverted
indexes `pubkey → filter-names` for the account and owner criteria, the sets
of names for which each dimension is required, the signature-requirement
pairs, and the per-name data predicates. -/
structure FilterAccounts where
  nonempty_txn_signature : List (FilterName × Option Bool)
  nonempty_txn_signature_required : List FilterName
  account : List (Pubkey × List FilterName)
  account_required : List FilterName
  owner : List (Pubkey × List FilterName)
  owner_required : List FilterName
  filters : List (FilterName × FilterAccountsState)
deriving DecidableEq, Repr

/-- Passing set of the nonempty-txn-signature dimension, from filter.rs
`FilterAccountsMatch::match_txn_signature`: a name passes when its declared
requirement equals the presence of the write signature. -/
def FilterAccounts.matchTxnSignature (f : FilterAccounts)
    (txn_signature : Option Signature) : List FilterName :=
  f.nonempty_txn_signature.filterMap fun p =>
    match p.2 with
    | some nonempty => if nonempty = txn_signature.isSome then some p.1 else none
    | none => none

/-- Inverted-index lookup, from filter.rs `FilterAccountsMatch::extend`: the
names attached to the key in the map (none when absent). -/
def FilterAccounts.lookupNames (map : List (Pubkey × List FilterName))
    (key : Pubkey) : List FilterName :=
  match map.lookup key with
  | some names => names
  | none => []

/-- Passing set of the account-pubkey dimension, from filter.rs
`FilterAccountsMatch::match_account`. -/
def FilterAccounts.matchAccount (f : FilterAccounts) (pubkey : Pubkey) :
    List FilterName :=
  FilterAccounts.lookupNames f.account pubkey

/-- Passing set of the owner-pubkey dimension, from filter.rs
`FilterAccountsMatch::match_owner`. -/
def FilterAccounts.matchOwner (f : FilterAccounts) (pubkey : Pubkey) :
    List FilterName :=
  FilterAccounts.lookupNames f.owner pubkey

/-- Passing set of the data dimension, from filter.rs
`FilterAccountsMatch::match_data_lamports`. -/
def FilterAccounts.matchDataLamports (f : FilterAccounts) (data : List Nat)
    (lamports : Nat) : List FilterName :=
  f.filters.filterMap fun p =>
    if p.2.is_match data lamports then some p.1 else none

/-- Aggregation of the per-dimension passing sets, from filter.rs
`FilterAccountsMatch::get_filters`: a name is yielded unless a dimension it
declared required misses it, or it has a non-empty data predicate and the data
dimension misses it. -/
def FilterAccounts.matchedNames (f : FilterAccounts) (msg : MessageAccount) :
    List FilterName :=
  let sigSet := f.matchTxnSignature msg.account.txn_signature
  let accountSet := f.matchAccount msg.account.pubkey
  let ownerSet := f.matchOwner msg.account.owner
  let dataSet := f.matchDataLamports msg.account.data msg.account.lamports
  f.filters.filterMap fun p =>
    if p.1 ∈ f.nonempty_txn_signature_required ∧ p.1 ∉ sigSet then none
    else if p.1 ∈ f.account_required ∧ p.1 ∉ accountSet then none
    else if p.1 ∈ f.owner_required ∧ p.1 ∉ ownerSet then none
    else if ¬p.2.is_empty ∧ p.1 ∉ dataSet then none
    else some p.1

/-- Projected message attached to a filter-name list, from filter.rs
`FilteredMessage` (the lifetime-borrowed references become values). -/
inductive FilteredMessage where
  | slot (msg : MessageSlot)
  | account (msg : MessageAccount)
  | transaction (msg : MessageTransaction)
  | transactionStatus (msg : MessageTransaction)
  | entry (msg : MessageEntry)
  | block (msg : MessageBlock)
  | blockMeta (msg : MessageBlockMeta)
deriving DecidableEq, Repr

/-- Accounts sub-filter match, from filter.rs `FilterAccounts::get_filters`:
one pair of the aggregated names and the account message. -/
def FilterAccounts.get_filters (f : FilterAccounts) (message : MessageAccount) :
    List (List FilterName × FilteredMessage) :=
  [(f.matchedNames message, .account message)]

/-- Slot request filter, from the proto `SubscribeRequestFilterSlots`. -/
structure SubscribeRequestFilterSlots where
  filter_by_commitment : Option Bool
deriving DecidableEq, Repr

/-- Compiled per-name slots entry, from filter.rs `FilterSlotsInner`. -/
structure FilterSlotsInner where
  filter_by_commitment : Bool
deriving DecidableEq, Repr

/-- Compilation of one slots entry, from filter.rs `FilterSlotsInner::new`:
an absent flag defaults to false. -/
def FilterSlotsInner.new (filter : SubscribeRequestFilterSlots) : FilterSlotsInner :=
  { filter_by_commitment := filter.filter_by_commitment.getD false }

/-- Compiled slots sub-filter, from filter.rs `FilterSlots`. -/
structure FilterSlots where
  filters : List (FilterName × FilterSlotsInner)
deriving DecidableEq, Repr

/-- Slots sub-filter match, from filter.rs `FilterSlots::get_filters`: a name
passes when its flag is off or the session commitment equals the message
status. -/
def FilterSlots.get_filters (f : FilterSlots) (message : MessageSlot)
    (commitment : Option CommitmentLevel) :
    List (List FilterName × FilteredMessage) :=
  [(f.filters.filterMap fun p =>
      if ¬p.2.filter_by_commitment ∨ commitment = some message.status
      then some p.1 else none,
    .slot message)]

/-- Channel discriminant of the transactions sub-filter, from filter.rs
`FilterTransactionsType`. -/
inductive FilterTransactionsType where
  | transaction
  | transactionStatus
deriving DecidableEq, Repr

/-- Compiled per-name transactions entry, from filter.rs
`FilterTransactionsInner`. -/
structure FilterTransactionsInner where
  vote : Option Bool
  failed : Option Bool
  signature : Option Signature
  account_include : List Pubkey
  account_exclude : List Pubkey
  account_required : List Pubkey
deriving DecidableEq, Repr

/-- Compiled transactions sub-filter, from filter.rs `FilterTransactions`. -/
structure FilterTransactions where
  filter_type : FilterTransactionsType
  filters : List (FilterName × FilterTransactionsInner)
deriving DecidableEq, Repr

/-- Per-entry transaction match, the body of the `filter_map` closure in
filter.rs `FilterTransactions::get_filters`: each present scalar predicate
must equal the transaction's value, `account_include` must be empty or
intersect the account-keys set, `account_exclude` must not intersect it, and
`account_required` must be a subset of it. -/
def FilterTransactionsInner.matches (inner : FilterTransactionsInner)
    (tx : MessageTransactionInfo) : Bool :=
  (match inner.vote with
   | some is_vote => is_vote == tx.is_vote
   | none => true) &&
  (match inner.failed with
   | some is_failed => is_failed == tx.meta.err.isSome
   | none => true) &&
  (match inner.signature with
   | some signature => tx.transaction.signatures.head? == some signature
   | none => true) &&
  (inner.account_include.isEmpty ||
    inner.account_include.any fun k => k ∈ tx.account_keys) &&
  !(inner.account_exclude.any fun k => k ∈ tx.account_keys) &&
  (inner.account_required.all fun k => k ∈ tx.account_keys)

/-- Transactions sub-filter match, from filter.rs
`FilterTransactions::get_filters`: one pair of the passing names and the
message on the channel selected by `filter_type`. -/
def FilterTransactions.get_filters (f : FilterTransactions)
    (message : MessageTransaction) : List (List FilterName × FilteredMessage) :=
  [(f.filters.filterMap fun p =>
      if p.2.matches message.transaction then some p.1 else none,
    match f.filter_type with
    | .transaction => .transaction message
    | .transactionStatus => .transactionStatus message)]

/-- Compiled entries sub-filter, from filter.rs `FilterEntries`. -/
structure FilterEntries where
  filters : List FilterName
deriving DecidableEq, Repr

/-- Entries sub-filter match, from filter.rs `FilterEntries::get_filters`:
unconditional. -/
def FilterEntries.get_filters (f : FilterEntries) (message : MessageEntry) :
    List (List FilterName × FilteredMessage) :=
  [(f.filters, .entry message)]

/-- Blocks request filter, from the proto `SubscribeRequestFilterBlocks`. -/
structure SubscribeRequestFilterBlocks where
  account_include : List String
  include_transactions : Option Bool
  include_accounts : Option Bool
  include_entries : Option Bool
deriving DecidableEq, Repr

/-- Per-kind limits for blocks filters.  Modelled from the spec: limits.rs is
not under src/; the spec lists `blocks.max`, `blocks.account_include_any`,
`blocks.account_include_max`, `blocks.account_include_reject`, and the
permission flags `include_transactions` / `include_accounts` /
`include_entries`. -/
structure FilterLimitsBlocks where
  max : Nat
  account_include_max : Nat
  account_include_any : Bool
  account_include_reject : List Pubkey
  include_transactions : Bool
  include_accounts : Bool
  include_entries : Bool
deriving DecidableEq, Repr

/-- Compiled per-name blocks entry, from filter.rs `FilterBlocksInner`. -/
structure FilterBlocksInner where
  account_include : List Pubkey
  include_transactions : Option Bool
  include_accounts : Option Bool
  include_entries : Option Bool
deriving DecidableEq, Repr

/-- Compiled blocks sub-filter, from filter.rs `FilterBlocks`. -/
structure FilterBlocks where
  filters : List (FilterName × FilterBlocksInner)
deriving DecidableEq, Repr

/-- Per-entry compilation loop of filter.rs `FilterBlocks::new` (a recursion
over the config map entries accumulating the built filters). -/
def FilterBlocks.build (configs : List (String × SubscribeRequestFilterBlocks))
    (limits : FilterLimitsBlocks) (this : FilterBlocks) :
    Except FilterError FilterBlocks :=
  match configs with
  | [] => .ok this
  | (name, filter) :: rest => do
    FilterLimits.check_any filter.account_include.isEmpty limits.account_include_any
    FilterLimits.check_pubkey_max filter.account_include.length limits.account_include_max
    if ¬(filter.include_transactions = some false ∨ limits.include_transactions) then
      .error (.createBlocksNotAllowed "transactions")
    else if ¬((filter.include_accounts = none ∨ filter.include_accounts = some false) ∨
        limits.include_accounts) then
      .error (.createBlocksNotAllowed "accounts")
    else if ¬((filter.include_entries = none ∨ filter.include_entries = some false) ∨
        limits.include_accounts) then
      .error (.createBlocksNotAllowed "entries")
    else do
      let account_include ← decodePubkeysIntoSet filter.account_include
        limits.account_include_reject
      FilterBlocks.build rest limits
        { filters := this.filters ++
            [(name,
              { account_include
                include_transactions := filter.include_transactions
                include_accounts := filter.include_accounts
                include_entries := filter.include_entries })] }

/-- Blocks sub-filter constructor, from filter.rs `FilterBlocks::new`. -/
def FilterBlocks.new (configs : List (String × SubscribeRequestFilterBlocks))
    (limits : FilterLimitsBlocks) : Except FilterError FilterBlocks := do
  FilterLimits.check_max configs.length limits.max
  FilterBlocks.build configs limits { filters := [] }

/-- Blocks sub-filter match, from filter.rs `FilterBlocks::get_filters`: one
pair per configured entry, the name list being that entry's singleton and the
block projected by the entry's `account_include` set and include flags. -/
def FilterBlocks.get_filters (f : FilterBlocks) (message : MessageBlock) :
    List (List FilterName × FilteredMessage) :=
  f.filters.map fun p =>
    let inner := p.2
    let transactions :=
      if inner.include_transactions = none ∨ inner.include_transactions = some true then
        message.transactions.filter fun tx =>
          !(¬inner.account_include.isEmpty ∧
            ¬inner.account_include.any fun k => k ∈ tx.account_keys)
      else []
    let accounts :=
      if inner.include_accounts = some true then
        message.accounts.filter fun account =>
          !(¬inner.account_include.isEmpty ∧ account.pubkey ∉ inner.account_include)
      else []
    let entries := if inner.include_entries = some true then message.entries else []
    ([p.1],
     .block
       { meta := message.meta
         transactions
         updated_account_count := message.updated_account_count
         accounts
         entries })

/-- Compiled blocks-meta sub-filter, from filter.rs `FilterBlocksMeta`. -/
structure FilterBlocksMeta where
  filters : List FilterName
deriving DecidableEq, Repr

/-- Blocks-meta sub-filter match, from filter.rs
`FilterBlocksMeta::get_filters`: unconditional. -/
def FilterBlocksMeta.get_filters (f : FilterBlocksMeta)
    (message : MessageBlockMeta) : List (List FilterName × FilteredMessage) :=
  [(f.filters, .blockMeta message)]

/-- Data-slice request entry, from the proto
`SubscribeRequestAccountsDataSlice` (u64 offset and length). -/
structure SubscribeRequestAccountsDataSlice where
  offset : Nat
  length : Nat
deriving DecidableEq, Repr

/-- Validated data-slice list, from filter.rs `FilterAccountsDataSlice`: each
pair is a half-open byte range (start, end). -/
abbrev FilterAccountsDataSlice := List (Nat × Nat)

/-- Validation loop of filter.rs `FilterAccountsDataSlice::new`: the source
iterates an index i over the slices, first scanning all later slices for an
order violation (`slice_a.start > slice_b.start`), then all earlier slices for
an overlap (`slice_a.start < slice_b.end`); here `prev` is the already
processed prefix and `rest` the current suffix, so `prev ++ rest` is the whole
list throughout. -/
def checkDataSlices (prev rest : FilterAccountsDataSlice) : Except FilterError Unit :=
  match rest with
  | [] => .ok ()
  | a :: later =>
    if later.any fun b => a.1 > b.1 then .error .createDataSliceOutOfOrder
    else if prev.any fun b => a.1 < b.2 then .error .createDataSliceOverlap
    else checkDataSlices (prev ++ [a]) later

/-- Data-slice list constructor, from filter.rs
`FilterAccountsDataSlice::new`: a max-count limits check, conversion of each
(offset, length) to the range [offset, offset+length) — the end computed with
wrapping u64 addition — then the order/overlap validation. -/
def FilterAccountsDataSlice.new (slices : List SubscribeRequestAccountsDataSlice)
    (limits : Nat) : Except FilterError FilterAccountsDataSlice := do
  FilterLimits.check_max slices.length limits
  let ranges := slices.map fun s => (s.offset, (s.offset + s.length) % 2 ^ 64)
  checkDataSlices [] ranges
  pure ranges

/-- Account data projection, the data computation of filter.rs
`FilteredMessage::as_proto_account`: pass-through for an empty slice list,
otherwise the ordered concatenation of `data[s.start..s.end]` over the slices,
a slice contributing only when its end is within the data. -/
def projectAccountData (data : List Nat) (data_slice : FilterAccountsDataSlice) :
    List Nat :=
  if data_slice.isEmpty then data
  else
    data_slice.foldl
      (fun acc s => if data.length ≥ s.2 then acc ++ sliceBytes data s.1 s.2 else acc)
      []

/-- Outbound account payload projection, from filter.rs
`FilteredMessage::as_proto_account`. -/
def FilteredMessage.as_proto_account (message : MessageAccountInfo)
    (data_slice : FilterAccountsDataSlice) : SubscribeUpdateAccountInfo :=
  { pubkey := message.pubkey
    lamports := message.lamports
    owner := message.owner
    executable := message.executable
    rent_epoch := message.rent_epoch
    data := projectAccountData message.data data_slice
    write_version := message.write_version
    txn_signature := message.txn_signature }

/-- Outbound transaction payload, from filter.rs
`FilteredMessage::as_proto_transaction`. -/
def FilteredMessage.as_proto_transaction (message : MessageTransactionInfo) :
    SubscribeUpdateTransactionInfo :=
  { signature := message.signature
    is_vote := message.is_vote
    transaction := some message.transaction
    meta := some message.meta
    index := message.index }

/-- Outbound entry payload, from filter.rs `FilteredMessage::as_proto_entry`. -/
def FilteredMessage.as_proto_entry (message : MessageEntry) : SubscribeUpdateEntry :=
  { slot := message.slot
    index := message.index
    num_hashes := message.num_hashes
    hash := message.hash
    executed_transaction_count := message.executed_transaction_count
    starting_transaction_index := message.starting_transaction_index }

/-- Wire projection of a filtered message, from filter.rs
`FilteredMessage::as_proto`. -/
def FilteredMessage.as_proto (m : FilteredMessage)
    (accounts_data_slice : FilterAccountsDataSlice) : UpdateOneof :=
  match m with
  | .slot message =>
    .slot { slot := message.slot, parent := message.parent
            status := message.status.toNat }
  | .account message =>
    .account { account := some (FilteredMessage.as_proto_account message.account
                 accounts_data_slice)
               slot := message.slot
               is_startup := message.is_startup }
  | .transaction message =>
    .transaction { transaction := some (FilteredMessage.as_proto_transaction
                     message.transaction)
                   slot := message.slot }
  | .transactionStatus message =>
    .transactionStatus { slot := message.slot
                         signature := message.transaction.signature
                         is_vote := message.transaction.is_vote
                         index := message.transaction.index
                         err := message.transaction.meta.err }
  | .entry message => .entry (FilteredMessage.as_proto_entry message)
  | .block message =>
    .block { slot := message.meta.block_meta.slot
             blockhash := message.meta.block_meta.blockhash
             rewards := message.meta.block_meta.rewards
             block_time := message.meta.block_meta.block_time
             block_height := message.meta.block_meta.block_height
             parent_slot := message.meta.block_meta.parent_slot
             parent_blockhash := message.meta.block_meta.parent_blockhash
             executed_transaction_count :=
               message.meta.block_meta.executed_transaction_count
             transactions :=
               message.transactions.map FilteredMessage.as_proto_transaction
             updated_account_count := message.updated_account_count
             accounts := message.accounts.map fun acc =>
               FilteredMessage.as_proto_account acc accounts_data_slice
             entries_count := message.meta.block_meta.entries_count
             entries := message.entries.map FilteredMessage.as_proto_entry }
  | .blockMeta message => .blockMeta message.block_meta

/-- Compiled per-subscription filter, from filter.rs `Filter`. -/
structure Filter where
  accounts : FilterAccounts
  slots : FilterSlots
  transactions : FilterTransactions
  transactions_status : FilterTransactions
  entries : FilterEntries
  blocks : FilterBlocks
  blocks_meta : FilterBlocksMeta
  commitment : CommitmentLevel
  accounts_data_slice : FilterAccountsDataSlice
  ping : Option Int
deriving DecidableEq, Repr

/-- Commitment decoding, from filter.rs `Filter::decode_commitment`: an absent
value defaults to Processed (0); an integer outside the proto enum range is an
`InvalidCommitment` error. -/
def decodeCommitment (commitment : Option Int) : Except FilterError CommitmentLevel :=
  let commitment := commitment.getD 0
  match commitment with
  | 0 => .ok .processed
  | 1 => .ok .confirmed
  | 2 => .ok .finalized
  | 3 => .ok .firstShredReceived
  | 4 => .ok .completed
  | 5 => .ok .createdBank
  | 6 => .ok .dead
  | other => .error (.invalidCommitment other)

/-- Match dispatcher, from filter.rs `Filter::get_filters`: account, slot,
entry and block-meta messages go to their sub-filter; a transaction message
goes to the transactions sub-filter chained with the transactions-status
sub-filter; a block message goes to the blocks sub-filter. -/
def Filter.get_filters (f : Filter) (message : Message)
    (commitment : Option CommitmentLevel) :
    List (List FilterName × FilteredMessage) :=
  match message with
  | .account message => f.accounts.get_filters message
  | .slot message => f.slots.get_filters message commitment
  | .transaction message =>
    f.transactions.get_filters message ++ f.transactions_status.get_filters message
  | .entry message => f.entries.get_filters message
  | .block message => f.blocks.get_filters message
  | .blockMeta message => f.blocks_meta.get_filters message

/-- Wire update production, from filter.rs `Filter::get_update`: each pair of
the dispatcher with a non-empty name list becomes a `SubscribeUpdate` carrying
the name labels and the projected payload; pairs with an empty name list are
dropped. -/
def Filter.get_update (f : Filter) (message : Message)
    (commitment : Option CommitmentLevel) : List SubscribeUpdate :=
  (f.get_filters message commitment).filterMap fun p =>
    if p.1.isEmpty then none
    else some { filters := p.1
                update_oneof := some (p.2.as_proto f.accounts_data_slice) }

/-- Initial pong, from filter.rs `Filter::get_pong_msg`. -/
def Filter.get_pong_msg (f : Filter) : Option SubscribeUpdate :=
  f.ping.map fun id =>
    { filters := [], update_oneof := some (.pong { id := id }) }

/-- Concrete accounts sub-filter used to evaluate the match theorems: one
name "tokens" requiring a write signature, account pubkey 5, owner pubkey 9,
and a data predicate (memcmp [7] at 0, datasize 2, lamports Gt 10). -/
def exampleFilterAccounts : FilterAccounts :=
  { nonempty_txn_signature := [("tokens", some true)]
    nonempty_txn_signature_required := ["tokens"]
    account := [(5, ["tokens"])]
    account_required := ["tokens"]
    owner := [(9, ["tokens"])]
    owner_required := ["tokens"]
    filters := [("tokens",
      { memcmp := [(0, [7])], datasize := some 2
        token_account_state := false, lamports := [.gt 10] })] }

/-- Concrete account message matching `exampleFilterAccounts`. -/
def exampleAccountMessage : MessageAccount :=
  { account :=
      { pubkey := 5, lamports := 3, owner := 9, executable := false
        rent_epoch := 0, data := [7, 1], write_version := 1
        txn_signature := some 77 }
    slot := 42
    is_startup := false }

/-- Compiled filter with no entries on any channel. -/
def exampleEmptyFilter : Filter :=
  { accounts := ⟨[], [], [], [], [], [], []⟩
    slots := ⟨[]⟩
    transactions := ⟨.transaction, []⟩
    transactions_status := ⟨.transactionStatus, []⟩
    entries := ⟨[]⟩
    blocks := ⟨[]⟩
    blocks_meta := ⟨[]⟩
    commitment := .processed
    accounts_data_slice := []
    ping := none }

/-- Compiled filter with a single entries subscription named "e". -/
def exampleEntriesFilter : Filter :=
  { exampleEmptyFilter with entries := ⟨["e"]⟩ }

/-- Concrete transaction message. -/
def exampleTransactionMessage : MessageTransaction :=
  { transaction :=
      { signature := 1, is_vote := false, transaction := { signatures := [1] }
        meta := { err := none }, index := 0, account_keys := [2] }
    slot := 5 }

/-- Concrete entry message. -/
def exampleEntryMessage : MessageEntry :=
  { slot := 3, index := 4, num_hashes := 5, hash := [6]
    executed_transaction_count := 7, starting_transaction_index := 8 }

/-- Concrete blocks sub-filter with one entry named "blk" and no criteria. -/
def exampleFilterBlocks : FilterBlocks :=
  ⟨[("blk",
    { account_include := [], include_transactions := none
      include_accounts := none, include_entries := none })]⟩

/-- Concrete block message with empty payload lists. -/
def exampleBlockMessage : MessageBlock :=
  { meta := ⟨{ parent_slot := 1, slot := 2, parent_blockhash := "p"
               blockhash := "b", rewards := none, block_time := none
               block_height := none, executed_transaction_count := 0
               entries_count := 0 }⟩
    transactions := [], updated_account_count := 3, accounts := []
    entries := [] }

/-- Concrete account record with six data bytes, for slicing evaluation. -/
def exampleSlicedAccountInfo : MessageAccountInfo :=
  { pubkey := 1, lamports := 2, owner := 3, executable := false, rent_epoch := 0
    data := [10, 11, 12, 13, 14, 15], write_version := 0, txn_signature := none }

/-- A 175-character base58 string: the encoding of 128 bytes of 0xFF. -/
def boundaryBase58 : String :=
  "TCQK6EStJfrNjc9cWq2Sj6UhZdDf6PzxEzibBRDEtmo4rfrcgpn2ZNwtAdNNMJ1TAw9FAToCeLPhrpuT6ZbQzEb7fgKt2ZYya6Qt6XsqUANCyiRgCfuxHKU8kKwK7tjAKUiUDrfQ8VijhUtwivXDb6irnaecaLyn3ftJd1VNbFErhEv"

/-- A 172-character base64 string: the encoding of 128 bytes of 0xFF. -/
def boundaryBase64 : String :=
  "//////////////////////////////////////////////////////////////////////////////////////////////////////////////////////////////////////////////////////////////////////////8="

/-- Boundary data-predicate request: 4 entries, a 175-character base58 memcmp
and a 172-character base64 memcmp both decoding to 128 bytes, one datasize and
one token-account-state entry. -/
def boundaryAccountsFilters : List SubscribeRequestFilterAccountsFilter :=
  [⟨some (.memcmp ⟨0, some (.base58 boundaryBase58)⟩)⟩,
   ⟨some (.memcmp ⟨0, some (.base64 boundaryBase64)⟩)⟩,
   ⟨some (.datasize 165)⟩,
   ⟨some (.tokenAccountState true)⟩]

/-- Decidable equality for build results. -/
instance exceptDecEq {e a : Type} [DecidableEq e] [DecidableEq a] :
    DecidableEq (Except e a) := fun x y =>
  match x, y with
  | .ok u, .ok v =>
    decidable_of_iff (u = v) ⟨fun h => h ▸ rfl, fun h => by cases h; rfl⟩
  | .ok _, .error _ => isFalse fun h => Except.noConfusion h
  | .error _, .ok _ => isFalse fun h => Except.noConfusion h
  | .error u, .error v =>
    decidable_of_iff (u = v) ⟨fun h => h ▸ rfl, fun h => by cases h; rfl⟩

end Geyser

/-
Helper lemmas shared by the claim theorems.
-/

namespace Geyser

theorem eq_snd_of_nodup_keys {α β : Type} :
    ∀ (l : List (α × β)), (l.map Prod.fst).Nodup →
      ∀ a b c, (a, b) ∈ l → (a, c) ∈ l → b = c := by
  intro l hn a b c hb hc
  induction l with
  | nil => cases hb
  | cons hd tl ih =>
    simp only [List.map_cons, List.nodup_cons] at hn
    rcases List.mem_cons.mp hb with rfl | hb'
    · rcases List.mem_cons.mp hc with h | hc'
      · exact (congrArg Prod.snd h).symm
      · exact absurd (List.mem_map_of_mem Prod.fst hc') (by simpa using hn.1)
    · rcases List.mem_cons.mp hc with rfl | hc'
      · exact absurd (List.mem_map_of_mem Prod.fst hb') (by simpa using hn.1)
      · exact ih hn.2 hb' hc'

theorem guard_chain_eq_some {α : Type} {c1 c2 c3 c4 : Prop} [Decidable c1]
    [Decidable c2] [Decidable c3] [Decidable c4] {x y : α} :
    (if c1 then none else if c2 then none else if c3 then none
     else if c4 then none else some x) = some y ↔
      (¬c1 ∧ ¬c2 ∧ ¬c3 ∧ ¬c4 ∧ x = y) := by
  by_cases h1 : c1 <;> by_cases h2 : c2 <;> by_cases h3 : c3 <;> by_cases h4 : c4 <;>
    simp [h1, h2, h3, h4]

set_option maxRecDepth 4000 in
theorem matches_iff :
  ∀ (inner : FilterTransactionsInner) (tx : MessageTransactionInfo),
    inner.matches tx = true ↔
      ((∀ v, inner.vote = some v → v = tx.is_vote) ∧
       (∀ b, inner.failed = some b → b = tx.meta.err.isSome) ∧
       (∀ s, inner.signature = some s → tx.transaction.signatures.head? = some s) ∧
       (inner.account_include = [] ∨ ∃ k ∈ inner.account_include, k ∈ tx.account_keys) ∧
       (∀ k ∈ inner.account_exclude, k ∉ tx.account_keys) ∧
       (∀ k ∈ inner.account_required, k ∈ tx.account_keys)) := by
  rintro ⟨vote, failed, signature, inc, exc, req⟩ tx
  cases vote <;> cases failed <;> cases signature <;>
    simp [FilterTransactionsInner.matches, List.isEmpty_iff, List.any_eq_true,
      List.all_eq_true, decide_eq_true_eq] <;>
    constructor <;> intro h <;> tauto

theorem foldl_append_extract (data : List Nat) :
    ∀ (l : FilterAccountsDataSlice) (init : List Nat),
      l.foldl (fun acc s => if data.length ≥ s.2 then acc ++ sliceBytes data s.1 s.2
               else acc) init =
        init ++ (l.filter fun s => s.2 ≤ data.length).flatMap
          (fun s => sliceBytes data s.1 s.2) := by
  intro l
  induction l with
  | nil => intro init; simp
  | cons hd tl ih =>
    intro init
    by_cases h : data.length ≥ hd.2
    · simp only [List.foldl_cons, if_pos h, ih, List.filter_cons,
        decide_eq_true (by omega : hd.2 ≤ data.length), List.flatMap_cons,
        if_true, List.append_assoc]
    · simp only [List.foldl_cons, if_neg h, ih, List.filter_cons]
      rw [if_neg (by simp; omega)]

theorem sliceBytes_length (data : List Nat) (a b : Nat)
    (hb : b ≤ data.length) : (sliceBytes data a b).length = b - a := by
  simp [sliceBytes]
  omega

theorem checkDataSlices_ok_iff :
    ∀ (rest prev : FilterAccountsDataSlice),
      checkDataSlices prev rest = .ok () ↔
        (List.Pairwise (fun a b => a.1 ≤ b.1 ∧ a.2 ≤ b.1) rest ∧
         ∀ p ∈ prev, ∀ a ∈ rest, p.2 ≤ a.1) := by
  intro rest
  induction rest with
  | nil => intro prev; simp [checkDataSlices]
  | cons a later ih =>
    intro prev
    by_cases h1 : later.any fun b => a.1 > b.1
    · simp only [checkDataSlices, h1, if_pos]
      constructor
      · intro h; cases h
      · rintro ⟨hpw, -⟩
        simp only [List.any_eq_true, decide_eq_true_eq] at h1
        obtain ⟨b, hb, hab⟩ := h1
        exact absurd ((List.pairwise_cons.mp hpw).1 b hb).1 (by omega)
    · by_cases h2 : prev.any fun b => a.1 < b.2
      · simp only [checkDataSlices, h1, h2, Bool.false_eq_true, if_false, if_pos]
        constructor
        · intro h; cases h
        · rintro ⟨-, hprev⟩
          simp only [List.any_eq_true, decide_eq_true_eq] at h2
          obtain ⟨b, hb, hab⟩ := h2
          exact absurd (hprev b hb a (List.mem_cons_self a later)) (by omega)
      · simp only [checkDataSlices, h1, h2, Bool.false_eq_true, if_false, ih,
          List.pairwise_cons]
        simp only [List.any_eq_true, decide_eq_true_eq, not_exists, not_and,
          not_lt, gt_iff_lt] at h1 h2
        constructor
        · rintro ⟨hpw, hall⟩
          refine ⟨⟨fun b hb => ⟨h1 b hb, hall a (by simp) b hb⟩, hpw⟩,
            fun p hp c hc => ?_⟩
          · rcases List.mem_cons.mp hc with rfl | hc'
            · exact h2 p hp
            · exact hall p (by simp [hp]) c hc'
        · rintro ⟨⟨hhd, hpw⟩, hprev⟩
          refine ⟨hpw, fun p hp c hc => ?_⟩
          rcases List.mem_append.mp hp with hp' | hp'
          · exact hprev p hp' c (List.mem_cons_of_mem a hc)
          · rcases List.mem_singleton.mp hp' with rfl
            exact (hhd c hc).2

theorem checkDataSlices_outoforder :
    ∀ (rest prev : FilterAccountsDataSlice),
      checkDataSlices prev rest = .error .createDataSliceOutOfOrder →
        ¬List.Pairwise (fun a b : Nat × Nat => a.1 ≤ b.1) rest := by
  intro rest
  induction rest with
  | nil => intro prev h; cases h
  | cons a later ih =>
    intro prev h
    by_cases h1 : later.any fun b => a.1 > b.1
    · simp only [List.any_eq_true, decide_eq_true_eq, gt_iff_lt] at h1
      obtain ⟨b, hb, hab⟩ := h1
      intro hpw
      exact absurd ((List.pairwise_cons.mp hpw).1 b hb) (by omega)
    · by_cases h2 : prev.any fun b => a.1 < b.2
      · simp [checkDataSlices, h1, h2] at h
      · simp only [checkDataSlices, h1, h2, Bool.false_eq_true, if_false] at h
        intro hpw
        exact ih (prev ++ [a]) h (List.pairwise_cons.mp hpw).2

theorem checkDataSlices_overlap :
    ∀ (rest prev : FilterAccountsDataSlice),
      checkDataSlices prev rest = .error .createDataSliceOverlap →
        ¬List.Pairwise (fun a b : Nat × Nat => a.2 ≤ b.1) (prev ++ rest) := by
  intro rest
  induction rest with
  | nil => intro prev h; cases h
  | cons a later ih =>
    intro prev h
    by_cases h1 : later.any fun b => a.1 > b.1
    · simp [checkDataSlices, h1] at h
    · by_cases h2 : prev.any fun b => a.1 < b.2
      · simp only [List.any_eq_true, decide_eq_true_eq] at h2
        obtain ⟨b, hb, hab⟩ := h2
        intro hpw
        have := (List.pairwise_append.mp hpw).2.2 b hb a (List.mem_cons_self a later)
        omega
      · simp only [checkDataSlices, h1, h2, Bool.false_eq_true, if_false] at h
        intro hpw
        refine ih (prev ++ [a]) h ?_
        simpa [List.append_assoc] using hpw

theorem blocks_new_single (name : String) (t a e : Option Bool) (lt la le : Bool) :
    FilterBlocks.new [(name, ⟨[], t, a, e⟩)] ⟨1, 0, true, [], lt, la, le⟩ =
      if ¬(t = some false ∨ lt = true) then .error (.createBlocksNotAllowed "transactions")
      else if ¬((a = none ∨ a = some false) ∨ la = true) then
        .error (.createBlocksNotAllowed "accounts")
      else if ¬((e = none ∨ e = some false) ∨ la = true) then
        .error (.createBlocksNotAllowed "entries")
      else .ok ⟨[(name, ⟨[], t, a, e⟩)]⟩ := by
  rcases t with _ | tb <;> (try cases tb) <;> rcases a with _ | ab <;> (try cases ab) <;>
    rcases e with _ | eb <;> (try cases eb) <;> cases lt <;> cases la <;> rfl

theorem build_cons_ok :
    ∀ (f : SubscribeRequestFilterAccountsFilter)
      (rest : List SubscribeRequestFilterAccountsFilter)
      (acc r : FilterAccountsState),
      FilterAccountsState.build (f :: rest) acc = .ok r →
        ∃ acc', FilterAccountsState.step f acc = .ok acc' ∧
          FilterAccountsState.build rest acc' = .ok r := by
  intro f rest acc r h
  unfold FilterAccountsState.build at h
  cases hs : FilterAccountsState.step f acc with
  | ok acc' =>
    rw [hs] at h
    exact ⟨acc', rfl, h⟩
  | error e =>
    rw [hs] at h
    cases h

theorem step_ok_entry :
    ∀ (f : SubscribeRequestFilterAccountsFilter) (acc acc' : FilterAccountsState),
      FilterAccountsState.step f acc = .ok acc' →
        (match f.filter with
         | some (.memcmp m) =>
           (match m.data with
            | some (.bytes d) => d.length ≤ 128
            | some (.base58 s) =>
              s.length ≤ 175 ∧ ∀ d, bs58Decode s = some d → d.length ≤ 128
            | some (.base64 s) =>
              s.length ≤ 172 ∧ ∀ d, base64Decode s = some d → d.length ≤ 128
            | none => True)
         | some (.tokenAccountState b) => b = true
         | _ => True) := by
  rintro ⟨filter⟩ acc acc' h
  rcases filter with _ | fv
  · exact trivial
  rcases fv with ⟨off, mdata⟩ | n | b | l
  · rcases mdata with _ | md
    · exact trivial
    rcases md with d | s | s
    · simp only [FilterAccountsState.step] at h ⊢
      by_cases hd : d.length > 128
      · rw [if_pos hd] at h; cases h
      · omega
    · simp only [FilterAccountsState.step] at h ⊢
      by_cases hs : s.length > 175
      · rw [if_pos hs] at h; cases h
      · rw [if_neg hs] at h
        refine ⟨by omega, fun d hd => ?_⟩
        rw [hd] at h
        have h2 : (if d.length > 128 then
            (.error (.createAccountState "data too large") :
              Except FilterError FilterAccountsState)
            else .ok { acc with memcmp := acc.memcmp ++ [(off, d)] }) = .ok acc' := h
        by_cases hdl : d.length > 128
        · rw [if_pos hdl] at h2; cases h2
        · omega
    · simp only [FilterAccountsState.step] at h ⊢
      by_cases hs : s.length > 172
      · rw [if_pos hs] at h; cases h
      · rw [if_neg hs] at h
        refine ⟨by omega, fun d hd => ?_⟩
        rw [hd] at h
        have h2 : (if d.length > 128 then
            (.error (.createAccountState "data too large") :
              Except FilterError FilterAccountsState)
            else .ok { acc with memcmp := acc.memcmp ++ [(off, d)] }) = .ok acc' := h
        by_cases hdl : d.length > 128
        · rw [if_pos hdl] at h2; cases h2
        · omega
  · exact trivial
  · simp only [FilterAccountsState.step] at h ⊢
    cases b
    · rw [if_pos (by simp)] at h; cases h
    · rfl
  · exact trivial

end Geyser

namespace Geyser

theorem step_datasize_true :
    ∀ (f : SubscribeRequestFilterAccountsFilter) (acc acc' : FilterAccountsState),
      (match f.filter with
       | some (.datasize _) => true
       | _ => false) = true →
      FilterAccountsState.step f acc = .ok acc' →
        acc.datasize = none ∧ acc'.datasize.isSome = true := by
  rintro ⟨filter⟩ acc acc' hp h
  rcases filter with _ | fv
  · cases hp
  rcases fv with m | n | b | l
  · cases hp
  · simp only [FilterAccountsState.step] at h
    by_cases hd : acc.datasize.isSome
    · rw [if_pos hd] at h; cases h
    · rw [if_neg hd] at h
      cases h
      exact ⟨Option.not_isSome_iff_eq_none.mp hd, rfl⟩
  · cases hp
  · cases hp

theorem step_datasize_false :
    ∀ (f : SubscribeRequestFilterAccountsFilter) (acc acc' : FilterAccountsState),
      (match f.filter with
       | some (.datasize _) => true
       | _ => false) = false →
      FilterAccountsState.step f acc = .ok acc' →
        acc'.datasize = acc.datasize := by
  rintro ⟨filter⟩ acc acc' hp h
  rcases filter with _ | fv
  · cases h
  rcases fv with ⟨off, mdata⟩ | n | b | l
  · rcases mdata with _ | md
    · cases h
    rcases md with d | s | s
    · simp only [FilterAccountsState.step] at h
      by_cases hd : d.length > 128
      · rw [if_pos hd] at h; cases h
      · rw [if_neg hd] at h; cases h; rfl
    · simp only [FilterAccountsState.step] at h
      by_cases hs : s.length > 175
      · rw [if_pos hs] at h; cases h
      · rw [if_neg hs] at h
        cases hdec : bs58Decode s with
        | some d =>
          rw [hdec] at h
          have h2 : (if d.length > 128 then
              (.error (.createAccountState "data too large") :
                Except FilterError FilterAccountsState)
              else .ok { acc with memcmp := acc.memcmp ++ [(off, d)] }) = .ok acc' := h
          by_cases hdl : d.length > 128
          · rw [if_pos hdl] at h2; cases h2
          · rw [if_neg hdl] at h2; cases h2; rfl
        | none =>
          rw [hdec] at h
          cases h
    · simp only [FilterAccountsState.step] at h
      by_cases hs : s.length > 172
      · rw [if_pos hs] at h; cases h
      · rw [if_neg hs] at h
        cases hdec : base64Decode s with
        | some d =>
          rw [hdec] at h
          have h2 : (if d.length > 128 then
              (.error (.createAccountState "data too large") :
                Except FilterError FilterAccountsState)
              else .ok { acc with memcmp := acc.memcmp ++ [(off, d)] }) = .ok acc' := h
          by_cases hdl : d.length > 128
          · rw [if_pos hdl] at h2; cases h2
          · rw [if_neg hdl] at h2; cases h2; rfl
        | none =>
          rw [hdec] at h
          cases h
  · cases hp
  · simp only [FilterAccountsState.step] at h
    cases b
    · rw [if_pos (by simp)] at h; cases h
    · rw [if_neg (by simp)] at h; cases h; rfl
  · simp only [FilterAccountsState.step] at h
    rcases l with ⟨_ | cmp⟩
    · cases h
    · cases h; rfl

theorem build_ok_entries :
    ∀ (filters : List SubscribeRequestFilterAccountsFilter)
      (acc r : FilterAccountsState),
      FilterAccountsState.build filters acc = .ok r →
      ∀ f ∈ filters,
        (match f.filter with
         | some (.memcmp m) =>
           (match m.data with
            | some (.bytes d) => d.length ≤ 128
            | some (.base58 s) =>
              s.length ≤ 175 ∧ ∀ d, bs58Decode s = some d → d.length ≤ 128
            | some (.base64 s) =>
              s.length ≤ 172 ∧ ∀ d, base64Decode s = some d → d.length ≤ 128
            | none => True)
         | some (.tokenAccountState b) => b = true
         | _ => True) := by
  intro filters
  induction filters with
  | nil => intro acc r h f hf; cases hf
  | cons hd tl ih =>
    intro acc r h f hf
    obtain ⟨acc', hstep, hbuild⟩ := build_cons_ok hd tl acc r h
    rcases List.mem_cons.mp hf with rfl | hf'
    · exact step_ok_entry f acc acc' hstep
    · exact ih acc' r hbuild f hf'

theorem build_datasize_count :
    ∀ (filters : List SubscribeRequestFilterAccountsFilter)
      (acc r : FilterAccountsState),
      FilterAccountsState.build filters acc = .ok r →
      filters.countP (fun f =>
          match f.filter with
          | some (.datasize _) => true
          | _ => false) +
        (if acc.datasize.isSome then 1 else 0) ≤ 1 := by
  intro filters
  induction filters with
  | nil =>
    intro acc r h
    simp only [List.countP_nil, Nat.zero_add]
    split <;> omega
  | cons hd tl ih =>
    intro acc r h
    obtain ⟨acc', hstep, hbuild⟩ := build_cons_ok hd tl acc r h
    have hrec := ih acc' r hbuild
    rw [List.countP_cons]
    cases hp : (match hd.filter with
                | some (.datasize _) => true
                | _ => false) with
    | true =>
      obtain ⟨hnone, hsome⟩ := step_datasize_true hd acc acc' hp hstep
      rw [hnone]
      rw [hsome] at hrec
      simp only [Option.isSome_none, Bool.false_eq_true, if_false, if_pos] at hrec ⊢
      omega
    | false =>
      rw [step_datasize_false hd acc acc' hp hstep] at hrec
      simp only [hp, Bool.false_eq_true, if_false]
      omega

end Geyser

/-
Claim theorems.
-/

namespace Geyser

/-- C1: for every account message and every compiled accounts sub-filter with
distinct per-name entries, a filter-name is yielded by the accounts sub-filter
iff every required dimension it declared (nonempty-txn-signature, account
pubkey, owner pubkey) contains the name in its passing set, and, when its
data-predicate structure is non-empty, the data predicate (datasize equality,
token-account-state shape, all lamports comparisons, all memcmp byte
comparisons at their offsets) is satisfied by the message's data and
lamports. -/
theorem accounts_get_filters_iff :
  ∀ (f : FilterAccounts) (message : MessageAccount),
    (f.filters.map Prod.fst).Nodup →
    ∀ name st, (name, st) ∈ f.filters →
    ((∃ pr ∈ FilterAccounts.get_filters f message, name ∈ pr.1) ↔
      ((name ∈ f.nonempty_txn_signature_required →
         name ∈ f.matchTxnSignature message.account.txn_signature) ∧
       (name ∈ f.account_required → name ∈ f.matchAccount message.account.pubkey) ∧
       (name ∈ f.owner_required → name ∈ f.matchOwner message.account.owner) ∧
       (¬st.is_empty → st.is_match message.account.data message.account.lamports))) := by
  intro f message hnodup name st hmem
  simp only [FilterAccounts.get_filters, List.mem_singleton, exists_eq_left,
    FilterAccounts.matchedNames, List.mem_filterMap]
  constructor
  · rintro ⟨⟨n, st'⟩, hp, hsome⟩
    rw [guard_chain_eq_some] at hsome
    obtain ⟨hc1, hc2, hc3, hc4, rfl⟩ := hsome
    have hst : st = st' := (eq_snd_of_nodup_keys _ hnodup _ _ _ hp hmem).symm
    subst hst
    refine ⟨fun h => ?_, fun h => ?_, fun h => ?_, fun h => ?_⟩
    · by_contra hn; exact hc1 ⟨h, hn⟩
    · by_contra hn; exact hc2 ⟨h, hn⟩
    · by_contra hn; exact hc3 ⟨h, hn⟩
    · have hd : n ∈ f.matchDataLamports message.account.data message.account.lamports := by
        by_contra hn; exact hc4 ⟨h, hn⟩
      simp only [FilterAccounts.matchDataLamports, List.mem_filterMap,
        Option.ite_none_right_eq_some, Option.some.injEq] at hd
      obtain ⟨⟨n', st''⟩, hp', hmatch, rfl⟩ := hd
      rw [eq_snd_of_nodup_keys _ hnodup _ _ _ hp' hmem] at hmatch
      exact hmatch
  · rintro ⟨h1, h2, h3, h4⟩
    refine ⟨(name, st), hmem, ?_⟩
    rw [guard_chain_eq_some]
    refine ⟨?_, ?_, ?_, ?_, rfl⟩
    · rintro ⟨hr, hn⟩; exact hn (h1 hr)
    · rintro ⟨hr, hn⟩; exact hn (h2 hr)
    · rintro ⟨hr, hn⟩; exact hn (h3 hr)
    · rintro ⟨hne, hn⟩
      refine hn ?_
      simp only [FilterAccounts.matchDataLamports, List.mem_filterMap,
        Option.ite_none_right_eq_some, Option.some.injEq]
      exact ⟨(name, st), hmem, h4 hne, rfl⟩

/-- Witness for C1 at a concrete sub-filter, message and name. -/
theorem accounts_get_filters_iff_witness :
    ∃ pr ∈ FilterAccounts.get_filters exampleFilterAccounts exampleAccountMessage,
      "tokens" ∈ pr.1 :=
  (accounts_get_filters_iff exampleFilterAccounts exampleAccountMessage (by decide)
    "tokens" ⟨[(0, [7])], some 2, false, [.gt 10]⟩ (by decide)).mpr (by decide)

/-- C2: for every transaction message and every transactions (or
transactions-status) sub-filter, a filter-name is yielded iff each present
scalar predicate (vote, failed, signature) equals the transaction's value,
`account_include` is empty or intersects the account-keys set,
`account_exclude` does not intersect it, and `account_required` is a subset of
it. -/
theorem transactions_get_filters_iff :
  ∀ (f : FilterTransactions) (message : MessageTransaction) (name : FilterName),
    (∃ pr ∈ FilterTransactions.get_filters f message, name ∈ pr.1) ↔
      ∃ inner, (name, inner) ∈ f.filters ∧
        (∀ v, inner.vote = some v → v = message.transaction.is_vote) ∧
        (∀ b, inner.failed = some b → b = message.transaction.meta.err.isSome) ∧
        (∀ s, inner.signature = some s →
          message.transaction.transaction.signatures.head? = some s) ∧
        (inner.account_include = [] ∨
          ∃ k ∈ inner.account_include, k ∈ message.transaction.account_keys) ∧
        (∀ k ∈ inner.account_exclude, k ∉ message.transaction.account_keys) ∧
        (∀ k ∈ inner.account_required, k ∈ message.transaction.account_keys) := by
  intro f message name
  simp only [FilterTransactions.get_filters, List.mem_singleton, exists_eq_left,
    List.mem_filterMap, Option.ite_none_right_eq_some, Option.some.injEq]
  constructor
  · rintro ⟨⟨n, inner⟩, hp, hc, rfl⟩
    exact ⟨inner, hp, (matches_iff inner message.transaction).mp hc⟩
  · rintro ⟨inner, hp, hc⟩
    exact ⟨(name, inner), hp, (matches_iff inner message.transaction).mpr hc, rfl⟩

/-- C3 counterexample: on a transaction message the dispatcher yields two
pairs (one per channel), not exactly one pair as claimed. -/
theorem dispatcher_transaction_yields_two_pairs :
    (exampleEmptyFilter.get_filters (.transaction exampleTransactionMessage)
      none).length = 2 ∧
    (exampleEmptyFilter.get_filters (.transaction exampleTransactionMessage)
      none).length ≠ 1 := by
  decide

/-- C3 (amended): for every compiled filter, the dispatcher yields exactly one
(filter-name-list, projected-update) pair for an account, slot, entry or
block-meta message, and exactly two pairs for a transaction message (one on
the transactions channel chained with one on the transactions-status
channel). -/
theorem dispatcher_pair_counts :
  ∀ (f : Filter) (commitment : Option CommitmentLevel),
    (∀ m : MessageAccount, (f.get_filters (.account m) commitment).length = 1) ∧
    (∀ m : MessageSlot, (f.get_filters (.slot m) commitment).length = 1) ∧
    (∀ m : MessageTransaction, (f.get_filters (.transaction m) commitment).length = 2) ∧
    (∀ m : MessageEntry, (f.get_filters (.entry m) commitment).length = 1) ∧
    (∀ m : MessageBlockMeta, (f.get_filters (.blockMeta m) commitment).length = 1) := by
  intro f commitment
  exact ⟨fun m => rfl, fun m => rfl, fun m => rfl, fun m => rfl, fun m => rfl⟩

/-- C4 counterexample: with the `include_transactions` permission off, an
absent request flag is rejected (the claim says absent must be accepted); and
with the `include_entries` permission off but `include_accounts` on, an
explicit `include_entries = true` request is accepted (the claim says it must
be rejected). -/
theorem blocks_new_include_absent_rejected :
    FilterBlocks.new [("b", ⟨[], none, none, none⟩)]
      ⟨1, 0, true, [], false, true, true⟩ =
      .error (.createBlocksNotAllowed "transactions") ∧
    (FilterBlocks.new [("b", ⟨[], some false, none, some true⟩)]
      ⟨1, 0, true, [], true, true, false⟩).isOk = true := by
  decide

/-- C4 (amended): building a one-entry blocks filter succeeds iff
`include_transactions` is explicitly false or its permission is on (an absent
flag counts as include and is rejected when the permission is off), and
`include_accounts` is absent-or-false or its permission is on, and
`include_entries` is absent-or-false or the `include_accounts` permission is
on (the entries check reads the accounts permission, and the
`include_entries` permission is never read); each failing check reports
`CreateBlocksNotAllowed` naming its field. -/
theorem blocks_new_include_flags :
  ∀ (name : String) (t a e : Option Bool) (lt la le : Bool),
    (((FilterBlocks.new [(name, ⟨[], t, a, e⟩)]
        ⟨1, 0, true, [], lt, la, le⟩).isOk = true) ↔
      ((t = some false ∨ lt = true) ∧
       ((a = none ∨ a = some false) ∨ la = true) ∧
       ((e = none ∨ e = some false) ∨ la = true))) ∧
    (¬(t = some false ∨ lt = true) →
      FilterBlocks.new [(name, ⟨[], t, a, e⟩)] ⟨1, 0, true, [], lt, la, le⟩ =
        .error (.createBlocksNotAllowed "transactions")) ∧
    ((t = some false ∨ lt = true) → ¬((a = none ∨ a = some false) ∨ la = true) →
      FilterBlocks.new [(name, ⟨[], t, a, e⟩)] ⟨1, 0, true, [], lt, la, le⟩ =
        .error (.createBlocksNotAllowed "accounts")) ∧
    ((t = some false ∨ lt = true) → ((a = none ∨ a = some false) ∨ la = true) →
      ¬((e = none ∨ e = some false) ∨ la = true) →
      FilterBlocks.new [(name, ⟨[], t, a, e⟩)] ⟨1, 0, true, [], lt, la, le⟩ =
        .error (.createBlocksNotAllowed "entries")) := by
  intro name t a e lt la le
  rw [blocks_new_single name t a e lt la le]
  by_cases h1 : (t = some false ∨ lt = true) <;>
    by_cases h2 : ((a = none ∨ a = some false) ∨ la = true) <;>
    by_cases h3 : ((e = none ∨ e = some false) ∨ la = true) <;>
    simp [h1, h2, h3, Except.isOk, Except.toBool]

/-- Witness for C4: the entries check fires (naming "entries") when
`include_entries = true` and the `include_accounts` permission is off. -/
theorem blocks_new_include_flags_witness :
    FilterBlocks.new [("b", ⟨[], some false, none, some true⟩)]
      ⟨1, 0, true, [], true, false, true⟩ =
      .error (.createBlocksNotAllowed "entries") :=
  (blocks_new_include_flags "b" (some false) none (some true) true false
    true).2.2.2 (by decide) (by decide) (by decide)

end Geyser

namespace Geyser

/-- C5: for every account payload and every data-slice list whose ranges are
well-formed, the projected data is the original data when the slice list is
empty, and otherwise the ordered concatenation of `data[s.start..s.end]` over
the slices skipping each slice whose end exceeds the data length, with output
length the sum of the slice widths over the surviving slices. -/
theorem as_proto_account_data_projection :
  ∀ (message : MessageAccountInfo) (data_slice : FilterAccountsDataSlice),
    (∀ s ∈ data_slice, s.1 ≤ s.2) →
    ((data_slice = [] →
       (FilteredMessage.as_proto_account message data_slice).data = message.data) ∧
     (data_slice ≠ [] →
       (FilteredMessage.as_proto_account message data_slice).data =
         (data_slice.filter fun s => s.2 ≤ message.data.length).flatMap
           (fun s => sliceBytes message.data s.1 s.2) ∧
       (FilteredMessage.as_proto_account message data_slice).data.length =
         ((data_slice.filter fun s => s.2 ≤ message.data.length).map
           (fun s => s.2 - s.1)).sum)) := by
  intro message data_slice hle
  constructor
  · intro h
    simp [FilteredMessage.as_proto_account, projectAccountData, h]
  · intro h
    have hne : ¬data_slice.isEmpty := by simpa [List.isEmpty_iff] using h
    have hproj : (FilteredMessage.as_proto_account message data_slice).data =
        (data_slice.filter fun s => s.2 ≤ message.data.length).flatMap
          (fun s => sliceBytes message.data s.1 s.2) := by
      simp only [FilteredMessage.as_proto_account, projectAccountData, hne,
        Bool.false_eq_true, if_false]
      simpa using foldl_append_extract message.data data_slice []
    refine ⟨hproj, ?_⟩
    rw [hproj, List.length_flatMap]
    congr 1
    refine List.map_congr_left ?_
    intro s hs
    have hcond : s.2 ≤ message.data.length := by
      have := List.of_mem_filter hs
      simpa using this
    exact sliceBytes_length _ _ _ hcond

/-- Witness for C5 at a six-byte payload with slices [0,2) and [4,6). -/
theorem as_proto_account_data_projection_witness :
    (([(0, 2), (4, 6)] : FilterAccountsDataSlice) = [] →
      (FilteredMessage.as_proto_account exampleSlicedAccountInfo
        [(0, 2), (4, 6)]).data = exampleSlicedAccountInfo.data) ∧
    (([(0, 2), (4, 6)] : FilterAccountsDataSlice) ≠ [] →
      (FilteredMessage.as_proto_account exampleSlicedAccountInfo
        [(0, 2), (4, 6)]).data =
        (([(0, 2), (4, 6)] : FilterAccountsDataSlice).filter fun s =>
          s.2 ≤ exampleSlicedAccountInfo.data.length).flatMap
          (fun s => sliceBytes exampleSlicedAccountInfo.data s.1 s.2) ∧
      (FilteredMessage.as_proto_account exampleSlicedAccountInfo
        [(0, 2), (4, 6)]).data.length =
        ((([(0, 2), (4, 6)] : FilterAccountsDataSlice).filter fun s =>
          s.2 ≤ exampleSlicedAccountInfo.data.length).map
          (fun s => s.2 - s.1)).sum) :=
  as_proto_account_data_projection exampleSlicedAccountInfo [(0, 2), (4, 6)]
    (by decide)

/-- C6 counterexample: the input with ranges [4,8) then [0,10) has a slice
that starts before a preceding slice's end (the overlap condition of the
claim), yet the build fails with DataSliceOutOfOrder, not DataSliceOverlap. -/
theorem data_slice_new_error_precedence :
    (0 : Nat) < 8 ∧
    FilterAccountsDataSlice.new [⟨4, 4⟩, ⟨0, 10⟩] 2 =
      .error .createDataSliceOutOfOrder ∧
    FilterAccountsDataSlice.new [⟨4, 4⟩, ⟨0, 10⟩] 2 ≠
      .error .createDataSliceOverlap := by
  decide

/-- C6 (amended): within the slice-count limit, building the data-slice list
succeeds (returning the converted ranges) iff the ranges are sorted by start
ascending and pairwise non-overlapping; a DataSliceOutOfOrder error implies
some range's start exceeds a later range's start, a DataSliceOverlap error
implies some range starts before a preceding range's end (when both
violations exist the scan reports whichever it detects first); adjacent
ranges [0,4),[4,8) are accepted. -/
theorem data_slice_new_validation :
  (∀ (slices : List SubscribeRequestAccountsDataSlice) (limits : Nat),
     slices.length ≤ limits →
     (FilterAccountsDataSlice.new slices limits =
        .ok (slices.map fun s => (s.offset, (s.offset + s.length) % 2 ^ 64)) ↔
      List.Pairwise (fun a b => a.1 ≤ b.1 ∧ a.2 ≤ b.1)
        (slices.map fun s => (s.offset, (s.offset + s.length) % 2 ^ 64)))) ∧
  (∀ (slices : List SubscribeRequestAccountsDataSlice) (limits : Nat),
     FilterAccountsDataSlice.new slices limits = .error .createDataSliceOutOfOrder →
       ¬List.Pairwise (fun a b : Nat × Nat => a.1 ≤ b.1)
         (slices.map fun s => (s.offset, (s.offset + s.length) % 2 ^ 64))) ∧
  (∀ (slices : List SubscribeRequestAccountsDataSlice) (limits : Nat),
     FilterAccountsDataSlice.new slices limits = .error .createDataSliceOverlap →
       ¬List.Pairwise (fun a b : Nat × Nat => a.2 ≤ b.1)
         (slices.map fun s => (s.offset, (s.offset + s.length) % 2 ^ 64))) ∧
  FilterAccountsDataSlice.new [⟨0, 4⟩, ⟨4, 4⟩] 2 = .ok [(0, 4), (4, 8)] := by
  have hnew : ∀ (slices : List SubscribeRequestAccountsDataSlice) (limits : Nat),
      FilterAccountsDataSlice.new slices limits =
        if slices.length > limits then .error (.limitsCheck .maxExceeded)
        else
          match checkDataSlices []
            (slices.map fun s => (s.offset, (s.offset + s.length) % 2 ^ 64)) with
          | .ok _ => .ok (slices.map fun s => (s.offset, (s.offset + s.length) % 2 ^ 64))
          | .error e => .error e := by
    intro slices limits
    unfold FilterAccountsDataSlice.new FilterLimits.check_max
    by_cases h : slices.length > limits
    · simp only [h, if_pos]
      rfl
    · simp only [h, Bool.false_eq_true, if_false]
      cases hcs : checkDataSlices []
          (slices.map fun s => (s.offset, (s.offset + s.length) % 2 ^ 64)) with
      | ok u =>
        cases u
        rfl
      | error e => rfl
  refine ⟨?_, ?_, ?_, ?_⟩
  · intro slices limits hle
    rw [hnew]
    rw [if_neg (by omega)]
    cases hcs : checkDataSlices []
        (slices.map fun s => (s.offset, (s.offset + s.length) % 2 ^ 64)) with
    | ok u =>
      have := (checkDataSlices_ok_iff _ []).mp (by cases u; exact hcs)
      simpa using this.1
    | error e =>
      constructor
      · intro h; cases h
      · intro hpw
        have : checkDataSlices []
            (slices.map fun s => (s.offset, (s.offset + s.length) % 2 ^ 64)) = .ok () :=
          (checkDataSlices_ok_iff _ []).mpr ⟨hpw, by simp⟩
        rw [hcs] at this; cases this
  · intro slices limits herr
    rw [hnew] at herr
    by_cases h : slices.length > limits
    · rw [if_pos h] at herr; cases herr
    · rw [if_neg h] at herr
      cases hcs : checkDataSlices []
          (slices.map fun s => (s.offset, (s.offset + s.length) % 2 ^ 64)) with
      | ok u => rw [hcs] at herr; cases herr
      | error e =>
        rw [hcs] at herr
        cases herr
        exact checkDataSlices_outoforder _ [] hcs
  · intro slices limits herr
    rw [hnew] at herr
    by_cases h : slices.length > limits
    · rw [if_pos h] at herr; cases herr
    · rw [if_neg h] at herr
      cases hcs : checkDataSlices []
          (slices.map fun s => (s.offset, (s.offset + s.length) % 2 ^ 64)) with
      | ok u => rw [hcs] at herr; cases herr
      | error e =>
        rw [hcs] at herr
        cases herr
        simpa using checkDataSlices_overlap _ [] hcs
  · decide

/-- Witness for C6: the success characterization at an in-order input, the
out-of-order implication at [4,8),[0,10), and the overlap implication at
[0,4),[3,8). -/
theorem data_slice_new_validation_witness :
    ((FilterAccountsDataSlice.new [⟨0, 4⟩, ⟨6, 2⟩] 2 =
        .ok (([⟨0, 4⟩, ⟨6, 2⟩] : List SubscribeRequestAccountsDataSlice).map
          fun s => (s.offset, (s.offset + s.length) % 2 ^ 64)) ↔
      List.Pairwise (fun a b => a.1 ≤ b.1 ∧ a.2 ≤ b.1)
        (([⟨0, 4⟩, ⟨6, 2⟩] : List SubscribeRequestAccountsDataSlice).map
          fun s => (s.offset, (s.offset + s.length) % 2 ^ 64))) ∧
     ¬List.Pairwise (fun a b : Nat × Nat => a.1 ≤ b.1)
       (([⟨4, 4⟩, ⟨0, 10⟩] : List SubscribeRequestAccountsDataSlice).map
         fun s => (s.offset, (s.offset + s.length) % 2 ^ 64)) ∧
     ¬List.Pairwise (fun a b : Nat × Nat => a.2 ≤ b.1)
       (([⟨0, 4⟩, ⟨3, 5⟩] : List SubscribeRequestAccountsDataSlice).map
         fun s => (s.offset, (s.offset + s.length) % 2 ^ 64))) :=
  ⟨data_slice_new_validation.1 [⟨0, 4⟩, ⟨6, 2⟩] 2 (by decide),
   data_slice_new_validation.2.1 [⟨4, 4⟩, ⟨0, 10⟩] 2 (by decide),
   data_slice_new_validation.2.2.1 [⟨0, 4⟩, ⟨3, 5⟩] 2 (by decide)⟩

end Geyser

namespace Geyser

/-- C7: building a per-filter account data-predicate structure succeeds only
when there are at most 4 entries, every base58 memcmp string is at most 175
characters, every base64 memcmp string is at most 172 characters, every
decoded memcmp byte literal is at most 128 bytes, datasize appears at most
once, and no token-account-state entry is false; and it succeeds at the
boundary (4 entries with a 175-character base58 memcmp and a 172-character
base64 memcmp both decoding to 128 bytes). -/
theorem accounts_state_new_limits :
  (∀ (filters : List SubscribeRequestFilterAccountsFilter) (r : FilterAccountsState),
    FilterAccountsState.new filters = .ok r →
      filters.length ≤ 4 ∧
      filters.countP (fun f =>
          match f.filter with
          | some (.datasize _) => true
          | _ => false) ≤ 1 ∧
      ∀ f ∈ filters,
        (match f.filter with
         | some (.memcmp m) =>
           (match m.data with
            | some (.bytes d) => d.length ≤ 128
            | some (.base58 s) =>
              s.length ≤ 175 ∧ ∀ d, bs58Decode s = some d → d.length ≤ 128
            | some (.base64 s) =>
              s.length ≤ 172 ∧ ∀ d, base64Decode s = some d → d.length ≤ 128
            | none => True)
         | some (.tokenAccountState b) => b = true
         | _ => True)) ∧
  (FilterAccountsState.new boundaryAccountsFilters).isOk = true := by
  constructor
  · intro filters r h
    unfold FilterAccountsState.new at h
    by_cases hlen : filters.length > 4
    · rw [if_pos hlen] at h; cases h
    · rw [if_neg hlen] at h
      refine ⟨by omega, ?_, build_ok_entries filters _ r h⟩
      have := build_datasize_count filters ⟨[], none, false, []⟩ r h
      simpa using this
  · set_option maxRecDepth 10000 in decide

/-- Witness for C7 at a concrete accepted one-entry request. -/
theorem accounts_state_new_limits_witness :
    ([⟨some (.datasize 5)⟩] :
        List SubscribeRequestFilterAccountsFilter).length ≤ 4 ∧
    ([⟨some (.datasize 5)⟩] :
        List SubscribeRequestFilterAccountsFilter).countP (fun f =>
          match f.filter with
          | some (.datasize _) => true
          | _ => false) ≤ 1 ∧
    ∀ f ∈ ([⟨some (.datasize 5)⟩] :
        List SubscribeRequestFilterAccountsFilter),
      (match f.filter with
       | some (.memcmp m) =>
         (match m.data with
          | some (.bytes d) => d.length ≤ 128
          | some (.base58 s) =>
            s.length ≤ 175 ∧ ∀ d, bs58Decode s = some d → d.length ≤ 128
          | some (.base64 s) =>
            s.length ≤ 172 ∧ ∀ d, base64Decode s = some d → d.length ≤ 128
          | none => True)
       | some (.tokenAccountState b) => b = true
       | _ => True) :=
  accounts_state_new_limits.1 [⟨some (.datasize 5)⟩]
    ⟨[], some 5, false, []⟩ (by decide)

/-- C8: a slots sub-filter entry is built with `filter_by_commitment`
defaulting to false when absent, and for every slot message and session
commitment a filter-name is yielded iff its flag is false or the session
commitment equals the message's status. -/
theorem slots_get_filters_iff :
  (∀ cfg : SubscribeRequestFilterSlots,
      (FilterSlotsInner.new cfg).filter_by_commitment =
        cfg.filter_by_commitment.getD false) ∧
  ∀ (f : FilterSlots) (message : MessageSlot) (commitment : Option CommitmentLevel)
    (name : FilterName),
    (∃ pr ∈ FilterSlots.get_filters f message commitment, name ∈ pr.1) ↔
      ∃ inner, (name, inner) ∈ f.filters ∧
        (inner.filter_by_commitment = false ∨ commitment = some message.status) := by
  refine ⟨fun cfg => rfl, ?_⟩
  intro f message commitment name
  simp only [FilterSlots.get_filters, List.mem_singleton, exists_eq_left,
    List.mem_filterMap, Option.ite_none_right_eq_some, Option.some.injEq]
  constructor
  · rintro ⟨⟨n, inner⟩, hp, hc, rfl⟩
    refine ⟨inner, hp, ?_⟩
    rcases hc with hc | hc
    · left; simpa using hc
    · right; exact hc
  · rintro ⟨inner, hp, hc⟩
    refine ⟨(name, inner), hp, ?_, rfl⟩
    rcases hc with hc | hc
    · left; simp [hc]
    · right; exact hc

/-- C9: every SubscribeUpdate produced by Filter::get_update carries a
non-empty filter-name label list; pairs with an empty list are dropped. -/
theorem get_update_filters_nonempty :
  ∀ (f : Filter) (message : Message) (commitment : Option CommitmentLevel)
    (u : SubscribeUpdate), u ∈ f.get_update message commitment → u.filters ≠ [] := by
  intro f message commitment u hu
  simp only [Filter.get_update, List.mem_filterMap] at hu
  obtain ⟨p, hp, hsome⟩ := hu
  by_cases he : p.1.isEmpty
  · simp [he] at hsome
  · simp only [he, if_neg, Bool.false_eq_true, not_false_eq_true, if_false] at hsome
    have hue : u = { filters := p.1
                     update_oneof := some (p.2.as_proto f.accounts_data_slice) } :=
      (Option.some.injEq .. ▸ hsome).symm
    subst hue
    intro hc
    apply he
    have hc' : p.1 = [] := hc
    simp [hc']

/-- Witness for C9 at a concrete produced update. -/
theorem get_update_filters_nonempty_witness :
    ({ filters := ["e"]
       update_oneof := some (.entry
         { slot := 3, index := 4, num_hashes := 5, hash := [6]
           executed_transaction_count := 7
           starting_transaction_index := 8 }) } : SubscribeUpdate).filters ≠ [] :=
  get_update_filters_nonempty exampleEntriesFilter (.entry exampleEntryMessage)
    none _ (by decide)

/-- C10: every pair yielded by the blocks sub-filter carries the singleton of
one configured entry's name (never empty) and a projected block that keeps the
input block's meta and updated-account-count unchanged. -/
theorem blocks_get_filters_frame :
  ∀ (f : FilterBlocks) (message : MessageBlock) (names : List FilterName)
    (fm : FilteredMessage), (names, fm) ∈ FilterBlocks.get_filters f message →
    ∃ name inner, (name, inner) ∈ f.filters ∧ names = [name] ∧ names ≠ [] ∧
      ∃ b : MessageBlock, fm = .block b ∧ b.meta = message.meta ∧
        b.updated_account_count = message.updated_account_count := by
  intro f message names fm h
  simp only [FilterBlocks.get_filters, List.mem_map] at h
  obtain ⟨⟨name, inner⟩, hp, heq⟩ := h
  obtain ⟨h1, h2⟩ := Prod.mk.injEq .. ▸ heq
  refine ⟨name, inner, hp, h1.symm, by simp [← h1], ?_⟩
  exact ⟨_, h2.symm, rfl, rfl⟩

/-- Witness for C10 at a concrete blocks sub-filter and block message. -/
theorem blocks_get_filters_frame_witness :
    ∃ name inner, (name, inner) ∈ exampleFilterBlocks.filters ∧
      (["blk"] : List FilterName) = [name] ∧ (["blk"] : List FilterName) ≠ [] ∧
      ∃ b : MessageBlock,
        FilteredMessage.block
          { meta := exampleBlockMessage.meta, transactions := []
            updated_account_count := 3, accounts := [], entries := [] } = .block b ∧
        b.meta = exampleBlockMessage.meta ∧
        b.updated_account_count = exampleBlockMessage.updated_account_count :=
  blocks_get_filters_frame exampleFilterBlocks exampleBlockMessage ["blk"] _
    (by decide)

end Geyser
